import Mathlib

/-!
Shallow embedding of the WhatsApp bot for Andy's Don Cash
(`commandHandler.js`, `autoReactivationManager.js`, `timeManager.js`,
`intentProcessor.js`, `incomingMessage.js`) and proofs about its
disable registry, business-hours oracle, conversation state machine
and auto-reactivation scheduler.

JavaScript objects keyed by chat id are embedded as association lists
with (reachably invariant) pairwise-distinct keys; `Date.now()` readings
are passed explicitly as `Nat` millisecond timestamps.
-/

namespace AndyBot

/-! ## JS string primitives

The JS string methods the bot calls (`split`, `startsWith`, `endsWith`,
`trim`, `toLowerCase`, `includes`) are embedded as structurally recursive
functions over the character list, so that every definition below
evaluates inside the kernel. -/

def jsSplitAux (sep : Char) : List Char → List Char → List String
  | [], acc => [⟨acc.reverse⟩]
  | c :: t, acc =>
    if c = sep then ⟨acc.reverse⟩ :: jsSplitAux sep t []
    else jsSplitAux sep t (c :: acc)

/-- `s.split(sep)` for a one-character separator. -/
def jsSplit (sep : Char) (s : String) : List String :=
  jsSplitAux sep s.data []

/-- `s.startsWith(pre)`. -/
def jsStartsWith (s pre : String) : Bool :=
  pre.data.isPrefixOf s.data

/-- `s.endsWith(post)`. -/
def jsEndsWith (s post : String) : Bool :=
  post.data.reverse.isPrefixOf s.data.reverse

/-- `s.trim()`. -/
def jsTrim (s : String) : String :=
  ⟨((s.data.dropWhile Char.isWhitespace).reverse.dropWhile Char.isWhitespace).reverse⟩

/-- `s.toLowerCase()` (ASCII range, which covers the keywords compared). -/
def jsToLower (s : String) : String :=
  ⟨s.data.map Char.toLower⟩

/-! ## Association-list primitives (embedding of JS object maps) -/

/-- First binding for key `k`, mirroring JS property lookup `obj[k]`. -/
def lookupA {α : Type} (k : String) : List (String × α) → Option α
  | [] => none
  | (k', v) :: t => if k' = k then some v else lookupA k t

/-- Property assignment `obj[k] = v`: replaces the binding if present,
otherwise appends a new one. -/
def insertA {α : Type} (k : String) (v : α) : List (String × α) → List (String × α)
  | [] => [(k, v)]
  | (k', v') :: t => if k' = k then (k, v) :: t else (k', v') :: insertA k v t

/-- Property deletion `delete obj[k]`. -/
def eraseA {α : Type} (k : String) (l : List (String × α)) : List (String × α) :=
  l.filter (fun p => p.1 ≠ k)

/-! ## Disable Registry (`commandHandler.js`) -/

/-- Entry of `this.disabledChats` created by `deactivateBot` (`/off`). -/
structure DisabledEntry where
  disabledBy : String
  startTime : Nat
  expiry : Nat
  deriving DecidableEq, Repr

/-- Entry of `this.manualInterventions` created by `registerManualIntervention`. -/
structure InterventionEntry where
  startTime : Nat
  expiry : Nat
  deriving DecidableEq, Repr

/-- Entry of `this.completedChats` created by `markProcessCompleted`. -/
structure CompletedEntry where
  completedAt : Nat
  expiry : Nat
  deriving DecidableEq, Repr

/-- The three disable namespaces held by the `CommandHandler` singleton. -/
structure Registry where
  disabledChats : List (String × DisabledEntry)
  manualInterventions : List (String × InterventionEntry)
  completedChats : List (String × CompletedEntry)
  deriving DecidableEq, Repr

def Registry.empty : Registry := ⟨[], [], []⟩

/-- JS objects never hold two bindings for the same key; every reachable
registry state satisfies this. -/
def Registry.WF (r : Registry) : Prop :=
  (r.disabledChats.map Prod.fst).Nodup ∧
  (r.manualInterventions.map Prod.fst).Nodup ∧
  (r.completedChats.map Prod.fst).Nodup

instance (r : Registry) : Decidable r.WF := by
  unfold Registry.WF; infer_instance

/-- `cleanExpiredEntries`: deletes from each namespace every entry with
`expiry < now`. -/
def cleanExpiredEntries (now : Nat) (r : Registry) : Registry where
  disabledChats := r.disabledChats.filter (fun p => ¬ p.2.expiry < now)
  manualInterventions := r.manualInterventions.filter (fun p => ¬ p.2.expiry < now)
  completedChats := r.completedChats.filter (fun p => ¬ p.2.expiry < now)

/-- The JS idiom `obj[chatId] && obj[chatId].expiry > Date.now()`: a
truthy lookup whose `expiry` exceeds `now` (`f` reads the expiry field). -/
def liveEntry {α : Type} (f : α → Nat) (now : Nat) : Option α → Bool
  | some e => decide (f e > now)
  | none => false

/-- `isChatDisabled`: runs `cleanExpiredEntries` first, then reports whether
the chat has an entry with `expiry > Date.now()` in any of the three
namespaces.  Returns the answer together with the swept registry (the sweep
is a mutation of `this` in the source). -/
def isChatDisabled (now : Nat) (chatId : String) (r : Registry) : Bool × Registry :=
  let r' := cleanExpiredEntries now r
  let isDisabledByCommand :=
    liveEntry (fun e => e.expiry) now (lookupA chatId r'.disabledChats)
  let isDisabledByIntervention :=
    liveEntry (fun e => e.expiry) now (lookupA chatId r'.manualInterventions)
  let isDisabledByCompletion :=
    liveEntry (fun e => e.expiry) now (lookupA chatId r'.completedChats)
  (isDisabledByCommand || isDisabledByIntervention || isDisabledByCompletion, r')

/-- `chatId.split("@")[0]`: the user part of a chat identity. -/
def userPart (chatId : String) : String :=
  (jsSplit '@' chatId).headD ""

/-- `isOwner`: exact match of the user identity against the configured
owner number. -/
def isOwner (ownerNumber userId : String) : Bool :=
  userId == ownerNumber

/-- `detectOwnerMessage`: true when the sender's user part is the owner and
the message does not start with `"/on"`.  The source's
`registerManualIntervention` call is commented out, so the registry is not
touched. -/
def detectOwnerMessage (ownerNumber chatId message : String) : Bool :=
  if ¬ isOwner ownerNumber (userPart chatId) then false
  else if jsStartsWith message "/on" then false
  else true

/-- `detectOwnerMessage` as a method on the `CommandHandler` state: the
source mutates nothing, so the registry passes through unchanged. -/
def detectOwnerMessageS (ownerNumber chatId message : String) (r : Registry) :
    Bool × Registry :=
  (detectOwnerMessage ownerNumber chatId message, r)

/-- `registerManualIntervention(chatId, hours)`: records a manual
intervention expiring `hours * 60 * 60 * 1000` ms from now. -/
def registerManualIntervention (now : Nat) (chatId : String) (hours : Nat)
    (r : Registry) : Registry :=
  let expiryTime := now + hours * 60 * 60 * 1000
  { r with manualInterventions :=
      insertA chatId ⟨now, expiryTime⟩ r.manualInterventions }

/-- The source's default argument is `hours = 1`. -/
def registerManualInterventionDefault (now : Nat) (chatId : String)
    (r : Registry) : Registry :=
  registerManualIntervention now chatId 1 r

/-- `markProcessCompleted(chatId, hours)`: records a completed process
expiring `hours * 60 * 60 * 1000` ms from now. -/
def markProcessCompleted (now : Nat) (chatId : String) (hours : Nat)
    (r : Registry) : Registry :=
  let expiryTime := now + hours * 60 * 60 * 1000
  { r with completedChats :=
      insertA chatId ⟨now, expiryTime⟩ r.completedChats }

/-- The source's default argument is `hours = 1`. -/
def markProcessCompletedDefault (now : Nat) (chatId : String)
    (r : Registry) : Registry :=
  markProcessCompleted now chatId 1 r

/-- `parseInt(s)` restricted to radix-10 inputs: skip surrounding
whitespace, read an optional sign, then the longest leading digit run;
`none` embeds `NaN` (no leading digit). -/
def parseIntJS (s : String) : Option Int :=
  let core : List Char → Option Nat := fun t =>
    let ds := t.takeWhile Char.isDigit
    if ds.isEmpty then none
    else some (ds.foldl (fun a c => a * 10 + (c.toNat - 48)) 0)
  match (jsTrim s).data with
  | '-' :: t => (core t).map (fun n => -(n : Int))
  | '+' :: t => (core t).map (fun n => (n : Int))
  | t => (core t).map (fun n => (n : Int))

/-- `deactivateBot` (`/off [hours]`): `args[0] ? parseInt(args[0]) : 24`
(the empty string is falsy), rejected when `isNaN(hours) || hours <= 0 ||
hours > 168`, otherwise records a command-disable entry.  Returns
`some hours` when an entry was created and `none` when the error reply was
sent, together with the resulting registry. -/
def deactivateBot (now : Nat) (ownerNumber chatId : String)
    (arg0 : Option String) (r : Registry) : Option Int × Registry :=
  let hours : Option Int :=
    match arg0 with
    | none => some 24
    | some s => if s = "" then some 24 else parseIntJS s
  match hours with
  | none => (none, r)
  | some h =>
    if h ≤ 0 ∨ h > 168 then (none, r)
    else
      let expiryTime := now + h.toNat * 60 * 60 * 1000
      (some h,
       { r with disabledChats :=
           insertA chatId ⟨ownerNumber, now, expiryTime⟩ r.disabledChats })

/-- `activateBot` (`/on`): deletes the chat's entry from each of the three
namespaces; `wasDisabled` records whether any deletion happened. -/
def activateBot (chatId : String) (r : Registry) : Bool × Registry :=
  let w1 := (lookupA chatId r.disabledChats).isSome
  let w2 := (lookupA chatId r.manualInterventions).isSome
  let w3 := (lookupA chatId r.completedChats).isSome
  (w1 || w2 || w3,
   ⟨eraseA chatId r.disabledChats,
    eraseA chatId r.manualInterventions,
    eraseA chatId r.completedChats⟩)

/-- `/reactivate`'s chat-id normalization (`!targetChatId.includes("@")`):
append the transport domain when the argument carries no `"@"`. -/
def normalizeChatId (s : String) : String :=
  if ¬ s.data.contains '@' then s ++ "@s.whatsapp.net" else s

/-- `forceReactivate` (`/reactivate [chatId]`): `none` when no argument was
given (error reply, no mutation); otherwise normalizes the target id and
clears its entries from the three namespaces, reporting `wasDisabled`. -/
def forceReactivate (arg0 : Option String) (r : Registry) :
    Option (Bool × Registry) :=
  match arg0 with
  | none => none
  | some s =>
    let targetChatId := normalizeChatId s
    let w1 := (lookupA targetChatId r.disabledChats).isSome
    let w2 := (lookupA targetChatId r.manualInterventions).isSome
    let w3 := (lookupA targetChatId r.completedChats).isSome
    some (w1 || w2 || w3,
      ⟨eraseA targetChatId r.disabledChats,
       eraseA targetChatId r.manualInterventions,
       eraseA targetChatId r.completedChats⟩)

/-! ## Auto-Reactivation Scheduler (`autoReactivationManager.js`) -/

/-- The scheduler state mutated by `checkAndReactivate`:
`wasBusinessHours` starts as `null` (embedded `none`), the
`massReactivationDone` marker starts as `(-1, -1)`. -/
structure ReactState where
  wasBusinessHours : Option Bool
  markerDay : Int
  markerHour : Int
  deriving DecidableEq, Repr

def ReactState.init : ReactState := ⟨none, -1, -1⟩

/-- `massReactivateAllChats`: unconditionally deletes every entry of every
namespace, returning how many entries were removed. -/
def massReactivateAllChats (r : Registry) : Nat × Registry :=
  (r.disabledChats.length + r.manualInterventions.length +
     r.completedChats.length,
   Registry.empty)

/-- The per-entry sweep of `checkAndReactivate` steps 1–3: deletes every
entry with `expiry <= now`, returning how many were removed. -/
def sweepDue (now : Nat) (r : Registry) : Nat × Registry :=
  let d := r.disabledChats.filter (fun p => ¬ p.2.expiry ≤ now)
  let m := r.manualInterventions.filter (fun p => ¬ p.2.expiry ≤ now)
  let c := r.completedChats.filter (fun p => ¬ p.2.expiry ≤ now)
  ((r.disabledChats.length - d.length) + (r.manualInterventions.length - m.length) +
     (r.completedChats.length - c.length),
   ⟨d, m, c⟩)

/-- The guard of the mass-reactivation branch: the previous reading was
truthy (`some true`), the current reading is closed, and the current
`(day, hour)` differs from the stored marker. -/
def massFires (bh : Bool) (day hour : Int) (s : ReactState) : Bool :=
  s.wasBusinessHours == some true && !bh &&
    (s.markerDay != day || s.markerHour != hour)

/-- `checkAndReactivate`: on a truthy→false business-hours transition with
a fresh `(day, hour)` marker, mass-reactivates and stamps the marker; then
always stores the current reading in `wasBusinessHours` and sweeps entries
whose `expiry <= now`.  Returns the number of reactivated chats with the
new scheduler state and registry. -/
def checkAndReactivate (bh : Bool) (day hour : Int) (now : Nat)
    (s : ReactState) (r : Registry) : Nat × ReactState × Registry :=
  let step : Nat × ReactState × Registry :=
    if s.wasBusinessHours == some true && !bh then
      if s.markerDay != day || s.markerHour != hour then
        ((massReactivateAllChats r).1,
         { s with markerDay := day, markerHour := hour },
         (massReactivateAllChats r).2)
      else (0, s, r)
    else (0, s, r)
  (step.1 + (sweepDue now step.2.2).1,
   { step.2.1 with wasBusinessHours := some bh },
   (sweepDue now step.2.2).2)

/-- Number of invocations whose mass-reactivation branch executes when
`checkAndReactivate` runs over a list of observations `(bh, now)` made
within a single wall-clock hour (so `(day, hour)` is fixed across the
run). -/
def massFireCount (day hour : Int) (s : ReactState) (r : Registry) :
    List (Bool × Nat) → Nat
  | [] => 0
  | (bh, now) :: t =>
    (if massFires bh day hour s then 1 else 0) +
      massFireCount day hour (checkAndReactivate bh day hour now s r).2.1
        (checkAndReactivate bh day hour now s r).2.2 t

/-- Number of mass reactivations fired exactly at the `(day, hour)` pair
`(day, hour)` over a run of `checkAndReactivate` invocations, each with
its own observation `(bh, day, hour, now)` (the general, multi-hour
runner). -/
def massFireCountAt (day hour : Int) :
    List (Bool × Int × Int × Nat) → ReactState → Registry → Nat
  | [], _, _ => 0
  | (bh, d, h, now) :: t, s, r =>
    (if d = day ∧ h = hour ∧ massFires bh d h s = true then 1 else 0) +
      massFireCountAt day hour t (checkAndReactivate bh d h now s r).2.1
        (checkAndReactivate bh d h now s r).2.2

/-! ## TimeManager (`timeManager.js`) -/

/-- The fields of a JS `Date` that `TimeManager` reads: `getMonth()`
(0–11), `getDate()` (day of month), `getDay()` (0 = Sunday … 6 =
Saturday) and `getHours()` (0–23). -/
structure JsDate where
  getMonth : Nat
  getDate : Nat
  getDay : Fin 7
  getHours : Nat
  deriving DecidableEq, Repr

/-- A weekday row of `this.businessHours`: `{ open: false }` or
`{ open: true, start, end }`. -/
inductive DaySchedule where
  | closed
  | openHours (start endHour : Nat)
  deriving DecidableEq, Repr

/-- `this.businessHours`: Sunday closed, Monday–Friday 10–17, Saturday
10–12. -/
def businessHoursTable : Fin 7 → DaySchedule
  | 0 => .closed
  | 1 => .openHours 10 17
  | 2 => .openHours 10 17
  | 3 => .openHours 10 17
  | 4 => .openHours 10 17
  | 5 => .openHours 10 17
  | 6 => .openHours 10 12

/-- `this.holidays` in `MM-DD` format. -/
def holidays : List String := ["01-01", "07-04", "12-25"]

/-- `n.toString().padStart(2, '0')` for the month/day numbers that occur
(both below 100). -/
def padTwo (n : Nat) : String :=
  if n < 10 then "0" ++ toString n else toString n

/-- `isHoliday(date)`: membership of the zero-padded `MM-DD` string (month
is `getMonth() + 1`) in the holiday list. -/
def isHoliday (d : JsDate) : Bool :=
  let dateStr := padTwo (d.getMonth + 1) ++ "-" ++ padTwo d.getDate
  holidays.contains dateStr

/-- `isBusinessHours()`: false on a holiday; false when the weekday row is
closed; otherwise `start <= hour < end`. -/
def isBusinessHours (d : JsDate) : Bool :=
  if isHoliday d then false
  else
    match businessHoursTable d.getDay with
    | .closed => false
    | .openHours start endHour => d.getHours ≥ start && d.getHours < endHour

/-! ## Conversation state machine (`intentProcessor.js`, `stateManager`) -/

/-- The per-user session record fields that the `lenguaje` and
process-completed paths read or write. -/
structure UserState where
  languageCode : Option String
  currentContext : String
  processCompleted : Bool
  text : Option String
  languageSelectionComplete : Bool
  deriving DecidableEq, Repr

/-- Dialogflow parameter fields read by `processIntent`:
`parameters.number?.numberValue` and `parameters.language?.stringValue`.
`numberValue` is embedded as an integer (the inputs concerned are whole
numbers). -/
structure IntentParams where
  number : Option Int
  language : Option String
  deriving DecidableEq, Repr

/-- A resolved `languageInput` value: a JS number or string. -/
inductive LangInput where
  | num (n : Int)
  | str (s : String)
  deriving DecidableEq, Repr

/-- JS truthiness for `parameters.number?.numberValue ||`: `0` (and an
absent field) is falsy. -/
def truthyNum : Option Int → Option Int
  | some n => if n = 0 then none else some n
  | none => none

/-- The `languageInput` cascade: the numeric parameter if truthy, else the
language keyword mapped to `1`/`2`, else the raw user text mapped to
`"es"`/`"en"`, else `null`. -/
def languageInputOf (p : IntentParams) (text : Option String) : Option LangInput :=
  match truthyNum p.number with
  | some n => some (.num n)
  | none =>
    if p.language = some "español" then some (.num 1)
    else if p.language = some "ingles" ∨ p.language = some "english" then some (.num 2)
    else
      let lower := jsToLower (text.getD "")
      if text = some "1" ∨ lower = "español" ∨ lower = "espanol" then some (.str "es")
      else if text = some "2" ∨ lower = "english" ∨ lower = "ingles" then some (.str "en")
      else none

/-- `languageCode`: `"es"` exactly for the inputs `1`, `"1"`, `"es"`,
`"español"`; everything else resolves to `"en"`. -/
def languageCodeOf (li : LangInput) : String :=
  if li = .num 1 ∨ li = .str "1" ∨ li = .str "es" ∨ li = .str "español"
  then "es" else "en"

/-- The outbound messages the embedded paths can send, identified by the
`messageProvider` lookup (static content) that produced them, or by the
literal text for the strings built inline. -/
inductive OutMessage where
  | welcome
  | languagePrompt
  | businessHoursMenu (lang : String)
  | outOfHoursMessage (lang : String)
  | textMsg (s : String)
  deriving DecidableEq, Repr

/-- The `case "lenguaje"` branch of `processIntent`
(`handlers/intentProcessor.js`): resolve the language input; on success
store the language and `language_selected` context, then send the main
menu when `isBusinessHours()` is true, or send the out-of-hours message
and flag `processCompleted` when it is false; on failure re-prompt for
language.  Returns the updated session and the message sent. -/
def processLanguageIntent (bh : Bool) (p : IntentParams) (u : UserState) :
    UserState × OutMessage :=
  match languageInputOf p u.text with
  | some li =>
    let languageCode := languageCodeOf li
    let u1 := { u with languageCode := some languageCode,
                       currentContext := "language_selected",
                       languageSelectionComplete := true }
    if bh then (u1, .businessHoursMenu languageCode)
    else ({ u1 with currentContext := "product_selected", processCompleted := true },
          .outOfHoursMessage languageCode)
  | none =>
    ({ u with currentContext := "waiting_language_selection" }, .languagePrompt)

/-! ## Incoming-message pipeline (`incomingMessage.js`) -/

/-- `Object.keys(this.commands)` of the `CommandHandler`. -/
def commands : List String :=
  ["👋", "/help", "/off", "/on", "/status", "/reset", "/stats",
   "/clean", "/cleanusers", "/setinactive", "/reactivation", "/reactivate"]

/-- `isCommand`: the trimmed text is the wave emoji, or starts with `/`
and its first whitespace-split token is a registered command. -/
def isCommand (message : String) : Bool :=
  let trimmedMessage := jsTrim message
  trimmedMessage == "👋" ||
    (jsStartsWith trimmedMessage "/" &&
      commands.contains ((jsSplit ' ' trimmedMessage).headD ""))

/-- Where a turn of `handleIncomingMessage` ends up, with the state it
leaves behind.  `normalProcessing` records that the turn continues into
`processIntent` with the given registry, session and intent. -/
inductive TurnResult where
  | ignoredGroup
  | ownerCommand
  | ownerIntervention
  | ignoredDisabled (r : Registry)
  | completedTurn (r : Registry) (msg : OutMessage) (u : UserState)
  | normalProcessing (r : Registry) (u : UserState) (intent : String)
  deriving DecidableEq, Repr

/-- `handleIncomingMessage`, up to the dispatch into `processIntent`:
group messages are dropped; the owner's commands and interventions
short-circuit; disabled chats are ignored (after the registry sweep of
`isChatDisabled`); then, when the oracle reports `ProcessCompleted` or the
session is already flagged, the chat is marked completed (default
duration), the farewell is sent in the session's language and the session
is reset.  The NLU oracle's verdict arrives as `intent`. -/
def handleIncomingMessage (now : Nat) (ownerNumber chatId text intent : String)
    (u : UserState) (r : Registry) : TurnResult :=
  if jsEndsWith chatId "@g.us" then .ignoredGroup
  else
    let userId := userPart chatId
    if isOwner ownerNumber userId && isCommand text then .ownerCommand
    else if isOwner ownerNumber userId && detectOwnerMessage ownerNumber chatId text then
      .ownerIntervention
    else
      let (disabled, r1) := isChatDisabled now chatId r
      if disabled then .ignoredDisabled r1
      else if intent = "ProcessCompleted" ∨ u.processCompleted then
        let r2 := markProcessCompletedDefault now chatId r1
        let language := u.languageCode.getD "es"
        let farewellMsg :=
          if language = "en"
          then "Thank you for your inquiry! We've registered your information."
          else "¡Gracias por tu consulta! Hemos registrado tu información."
        .completedTurn r2 (.textMsg farewellMsg)
          { u with currentContext := "", processCompleted := false }
      else .normalProcessing r1 u intent

/-- Modelled from the spec: "the text is not itself the '/on' reactivation
command".  The command router (`handleCommand`) dispatches on the first
whitespace-separated token of the text, so a text is the `/on` command
exactly when that token is `"/on"`. -/
def isOnReactivationCommand (text : String) : Bool :=
  (jsSplit ' ' text).headD "" == "/on"

/-! ## Lemmas about association-list lookup -/

theorem lookupA_none_of_not_mem {α : Type} {k : String} :
    ∀ {l : List (String × α)}, k ∉ l.map Prod.fst → lookupA k l = none
  | [], _ => rfl
  | (k', v) :: t, h => by
    simp only [List.map_cons, List.mem_cons] at h
    push_neg at h
    have hne : k' ≠ k := fun hh => h.1 hh.symm
    simp only [lookupA, if_neg hne]
    exact lookupA_none_of_not_mem h.2

/-- Looking a key up after a value-filter, on a duplicate-free map, is
looking it up first and then testing the value. -/
theorem clean_live_iff {α : Type} (f : α → Nat) (now : Nat) (k : String) :
    ∀ (l : List (String × α)), (l.map Prod.fst).Nodup →
      ((liveEntry f now (lookupA k (l.filter fun p => decide ¬ (f p.2 < now))) = true) ↔
        ∃ p ∈ l, p.1 = k ∧ f p.2 > now)
  | [], _ => by simp [lookupA, liveEntry]
  | (k', v) :: t, h => by
    simp only [List.map_cons, List.nodup_cons] at h
    obtain ⟨hk, ht⟩ := h
    have ih := clean_live_iff f now k t ht
    rw [List.filter_cons]
    by_cases hv : f v < now
    · rw [if_neg (by simpa using hv)]
      rw [ih]
      simp only [List.mem_cons]
      constructor
      · rintro ⟨p, hp, hpk, hpe⟩
        exact ⟨p, Or.inr hp, hpk, hpe⟩
      · rintro ⟨p, hp | hp, hpk, hpe⟩
        · subst hp
          simp only at hpe
          omega
        · exact ⟨p, hp, hpk, hpe⟩
    · rw [if_pos (by simpa using hv)]
      by_cases hkk : k' = k
      · subst hkk
        have hlook : lookupA k' ((k', v) :: t.filter fun p => decide ¬ (f p.2 < now)) =
            some v := by
          simp [lookupA]
        rw [hlook]
        simp only [liveEntry, decide_eq_true_eq]
        constructor
        · intro hfv
          exact ⟨(k', v), List.mem_cons_self _ _, rfl, hfv⟩
        · rintro ⟨p, hp, hpk, hpe⟩
          rcases List.mem_cons.mp hp with h1 | h1
          · subst h1
            exact hpe
          · exact absurd (hpk ▸ List.mem_map_of_mem Prod.fst h1) hk
      · have hlook : lookupA k ((k', v) :: t.filter fun p => decide ¬ (f p.2 < now)) =
            lookupA k (t.filter fun p => decide ¬ (f p.2 < now)) := by
          simp [lookupA, hkk]
        rw [hlook, ih]
        simp only [List.mem_cons]
        constructor
        · rintro ⟨p, hp, hpk, hpe⟩
          exact ⟨p, Or.inr hp, hpk, hpe⟩
        · rintro ⟨p, hp | hp, hpk, hpe⟩
          · subst hp
            exact absurd hpk hkk
          · exact ⟨p, hp, hpk, hpe⟩

/-- C2: for every chat identity and well-formed (duplicate-free, as every
reachable JS object state is) registry, `isChatDisabled` answers true iff
at least one of the chat's three namespace entries has `expiry > now`, and
the lazy sweep it performs leaves no entry whose expiry instant has
passed. -/
theorem isChatDisabled_live_iff (now : Nat) (chatId : String) (r : Registry)
    (hwf : r.WF) :
    ((isChatDisabled now chatId r).1 = true ↔
      (∃ p ∈ r.disabledChats, p.1 = chatId ∧ p.2.expiry > now) ∨
      (∃ p ∈ r.manualInterventions, p.1 = chatId ∧ p.2.expiry > now) ∨
      (∃ p ∈ r.completedChats, p.1 = chatId ∧ p.2.expiry > now)) ∧
    (∀ p ∈ (isChatDisabled now chatId r).2.disabledChats, now ≤ p.2.expiry) ∧
    (∀ p ∈ (isChatDisabled now chatId r).2.manualInterventions, now ≤ p.2.expiry) ∧
    (∀ p ∈ (isChatDisabled now chatId r).2.completedChats, now ≤ p.2.expiry) := by
  obtain ⟨h1, h2, h3⟩ := hwf
  refine ⟨?_, ?_, ?_, ?_⟩
  · simp only [isChatDisabled, cleanExpiredEntries, Bool.or_eq_true]
    rw [or_assoc]
    have hA := clean_live_iff (fun e : DisabledEntry => e.expiry) now chatId r.disabledChats h1
    have hB := clean_live_iff (fun e : InterventionEntry => e.expiry) now chatId
      r.manualInterventions h2
    have hC := clean_live_iff (fun e : CompletedEntry => e.expiry) now chatId
      r.completedChats h3
    beta_reduce at hA hB hC
    exact or_congr hA (or_congr hB hC)
  · intro p hp
    simp only [isChatDisabled, cleanExpiredEntries, List.mem_filter,
      decide_eq_true_eq] at hp
    omega
  · intro p hp
    simp only [isChatDisabled, cleanExpiredEntries, List.mem_filter,
      decide_eq_true_eq] at hp
    omega
  · intro p hp
    simp only [isChatDisabled, cleanExpiredEntries, List.mem_filter,
      decide_eq_true_eq] at hp
    omega

theorem lookupA_eraseA {α : Type} (k : String) :
    ∀ l : List (String × α), lookupA k (eraseA k l) = none
  | [] => rfl
  | (k', v) :: t => by
    have ih := lookupA_eraseA k t
    simp only [eraseA, List.filter_cons] at ih ⊢
    by_cases h : k' = k
    · simpa [h] using ih
    · simpa [h, lookupA] using ih

theorem eraseA_idem {α : Type} (k : String) (l : List (String × α)) :
    eraseA k (eraseA k l) = eraseA k l := by
  simp [eraseA, List.filter_filter]

/-- C7 (amended): `/on` and `/reactivate` delete the chat's entries from
all three namespaces and report whether any entry (live or expired) was
present; a second call in a row finds nothing, reports
`wasDisabled = false`, and changes nothing; `forceReactivate` behaves as
`activateBot` on the normalized target id. -/
theorem activateBot_clears_and_idempotent (chatId : String) (r : Registry) :
    (activateBot chatId r).1 =
      ((lookupA chatId r.disabledChats).isSome ||
       (lookupA chatId r.manualInterventions).isSome ||
       (lookupA chatId r.completedChats).isSome) ∧
    lookupA chatId (activateBot chatId r).2.disabledChats = none ∧
    lookupA chatId (activateBot chatId r).2.manualInterventions = none ∧
    lookupA chatId (activateBot chatId r).2.completedChats = none ∧
    activateBot chatId (activateBot chatId r).2 = (false, (activateBot chatId r).2) ∧
    (∀ s : String, forceReactivate (some s) r = some (activateBot (normalizeChatId s) r)) := by
  refine ⟨rfl, lookupA_eraseA _ _, lookupA_eraseA _ _, lookupA_eraseA _ _, ?_, fun s => rfl⟩
  simp [activateBot, lookupA_eraseA, eraseA_idem]

/-- C7 counterexample: with an expired CompletedChat entry still in the
registry the chat is not disabled (`isChatDisabled` answers false), yet
reactivation reports `wasDisabled = true`, so the reported flag is not
"whether the chat was disabled". -/
theorem activateBot_reports_expired_entry :
    (isChatDisabled 10 "5551234567@s.whatsapp.net"
        ⟨[], [], [("5551234567@s.whatsapp.net", ⟨0, 5⟩)]⟩).1 = false ∧
    (activateBot "5551234567@s.whatsapp.net"
        ⟨[], [], [("5551234567@s.whatsapp.net", ⟨0, 5⟩)]⟩).1 = true := by
  decide

/-! ## Lemmas about the auto-reactivation scheduler -/

/-- One invocation of `checkAndReactivate`, split by whether the
mass-reactivation guard fires. -/
theorem checkAndReactivate_eq (bh : Bool) (day hour : Int) (now : Nat)
    (s : ReactState) (r : Registry) :
    checkAndReactivate bh day hour now s r =
      if massFires bh day hour s then
        (r.disabledChats.length + r.manualInterventions.length + r.completedChats.length,
         ⟨some bh, day, hour⟩, Registry.empty)
      else
        ((sweepDue now r).1, ⟨some bh, s.markerDay, s.markerHour⟩, (sweepDue now r).2) := by
  by_cases hA : (s.wasBusinessHours == some true && !bh) = true
  · by_cases hB : (s.markerDay != day || s.markerHour != hour) = true
    · have hf : massFires bh day hour s = true := by
        simp [massFires, hA, hB]
      simp [checkAndReactivate, hA, hB, hf, massReactivateAllChats, sweepDue,
        Registry.empty]
    · have hB' : (s.markerDay != day || s.markerHour != hour) = false := by
        rwa [Bool.not_eq_true] at hB
      have hf : massFires bh day hour s = false := by
        simp [massFires, hB']
      simp [checkAndReactivate, hA, hB', hf]
  · have hA' : (s.wasBusinessHours == some true && !bh) = false := by
      rwa [Bool.not_eq_true] at hA
    have hf : massFires bh day hour s = false := by
      simp [massFires, hA']
    simp [checkAndReactivate, hA', hf]

/-- Once the marker equals the current `(day, hour)`, no invocation in the
rest of the hour can mass-reactivate again. -/
theorem massFireCount_zero_of_marker (day hour : Int) :
    ∀ (L : List (Bool × Nat)) (s : ReactState) (r : Registry),
      s.markerDay = day → s.markerHour = hour → massFireCount day hour s r L = 0
  | [], _, _, _, _ => rfl
  | (bh, now) :: t, s, r, hd, hh => by
    have hf : massFires bh day hour s = false := by simp [massFires, hd, hh]
    have heq := checkAndReactivate_eq bh day hour now s r
    rw [hf] at heq
    simp only [if_false, Bool.false_eq_true] at heq
    simp only [massFireCount, hf, Bool.false_eq_true, if_false, heq, zero_add]
    exact massFireCount_zero_of_marker day hour t _ _ hd hh

/-- Over any run sharing one `(day, hour)`, the mass-reactivation branch
executes at most once. -/
theorem massFireCount_le_one (day hour : Int) :
    ∀ (L : List (Bool × Nat)) (s : ReactState) (r : Registry),
      massFireCount day hour s r L ≤ 1
  | [], _, _ => Nat.zero_le 1
  | (bh, now) :: t, s, r => by
    by_cases hf : massFires bh day hour s = true
    · have heq := checkAndReactivate_eq bh day hour now s r
      rw [hf] at heq
      simp only [if_true] at heq
      simp only [massFireCount, hf, if_true, heq]
      have hz := massFireCount_zero_of_marker day hour t ⟨some bh, day, hour⟩
        Registry.empty rfl rfl
      omega
    · rw [Bool.not_eq_true] at hf
      simp only [massFireCount, hf, Bool.false_eq_true, if_false, zero_add]
      exact massFireCount_le_one day hour t _ _

/-- C3: mass reactivation executes exactly under the guard "business hours
were open at the previous check, are closed now, and the `(day, hour)`
marker is stale"; firing empties all three namespaces and stamps the
marker with the current `(day, hour)`; consequently, over any sequence of
`checkAndReactivate` invocations within one `(day, hour)`, mass
reactivation fires at most once. -/
theorem checkAndReactivate_mass_once (day hour : Int) (s : ReactState)
    (r : Registry) (L : List (Bool × Nat)) :
    massFireCount day hour s r L ≤ 1 ∧
    (∀ (bh : Bool) (now : Nat),
      (massFires bh day hour s = true ↔
        (s.wasBusinessHours = some true ∧ bh = false ∧
          (s.markerDay ≠ day ∨ s.markerHour ≠ hour))) ∧
      (massFires bh day hour s = true →
        checkAndReactivate bh day hour now s r =
          (r.disabledChats.length + r.manualInterventions.length +
             r.completedChats.length,
           ⟨some bh, day, hour⟩, Registry.empty)) ∧
      (massFires bh day hour s = false →
        checkAndReactivate bh day hour now s r =
          ((sweepDue now r).1, ⟨some bh, s.markerDay, s.markerHour⟩,
           (sweepDue now r).2))) := by
  refine ⟨massFireCount_le_one day hour L s r, fun bh now => ⟨?_, ?_, ?_⟩⟩
  · simp [massFires, Bool.and_eq_true]
    tauto
  · intro hf
    rw [checkAndReactivate_eq, hf]
    simp
  · intro hf
    rw [checkAndReactivate_eq, hf]
    simp

/-- C3 counterexample: the marker stores only a weekday–hour pair, so
over a five-invocation sequence — Saturday-noon close, Monday 16 open,
Monday 17 close, next-Saturday 11 open, next-Saturday-noon close — the
pair `(6, 12)` mass-reactivates twice: the Monday firing overwrote the
marker. -/
theorem massFireCountAt_two_counterexample :
    massFireCountAt 6 12
      [(false, 6, 12, 100), (true, 1, 16, 200), (false, 1, 17, 300),
       (true, 6, 11, 400), (false, 6, 12, 500)]
      ⟨some true, -1, -1⟩ Registry.empty = 2 := by
  decide

/-- Concrete run for C3: starting from a fresh marker inside business
hours, two closed-hours observations in the same hour mass-reactivate only
on the first. -/
theorem checkAndReactivate_mass_once_witness :
    massFireCount 6 12 ⟨some true, -1, -1⟩
        ⟨[("a@s.whatsapp.net", ⟨"o", 0, 99⟩)], [], []⟩
        [(false, 5), (false, 6)] ≤ 1 ∧
    checkAndReactivate false 6 12 5 ⟨some true, -1, -1⟩
        ⟨[("a@s.whatsapp.net", ⟨"o", 0, 99⟩)], [], []⟩ =
      (1, ⟨some false, 6, 12⟩, Registry.empty) :=
  ⟨(checkAndReactivate_mass_once 6 12 ⟨some true, -1, -1⟩
      ⟨[("a@s.whatsapp.net", ⟨"o", 0, 99⟩)], [], []⟩ [(false, 5), (false, 6)]).1,
   ((checkAndReactivate_mass_once 6 12 ⟨some true, -1, -1⟩
      ⟨[("a@s.whatsapp.net", ⟨"o", 0, 99⟩)], [], []⟩ [(false, 5), (false, 6)]).2
      false 5).2.1 (by decide)⟩

/-- Concrete instance for C2: a registry holding one live command-disable
entry is well-formed and reported disabled. -/
theorem isChatDisabled_live_iff_witness :
    (⟨[("77@s.whatsapp.net", ⟨"owner", 0, 50⟩)], [], []⟩ : Registry).WF ∧
    (isChatDisabled 10 "77@s.whatsapp.net"
        ⟨[("77@s.whatsapp.net", ⟨"owner", 0, 50⟩)], [], []⟩).1 = true :=
  ⟨by decide,
   (isChatDisabled_live_iff 10 "77@s.whatsapp.net"
      ⟨[("77@s.whatsapp.net", ⟨"owner", 0, 50⟩)], [], []⟩ (by decide)).1.mpr
     (Or.inl ⟨("77@s.whatsapp.net", ⟨"owner", 0, 50⟩), by decide, rfl, by decide⟩)⟩

/-- C4: called without an explicit duration (at `now = 0` for chat
`"123@s.whatsapp.net"`), `registerManualIntervention` and
`markProcessCompleted` create entries expiring 3 600 000 ms (one hour)
later — not the 24 hours the surrounding code and documentation
announce. -/
theorem default_durations_are_one_hour :
    lookupA "123@s.whatsapp.net"
        (registerManualInterventionDefault 0 "123@s.whatsapp.net"
          Registry.empty).manualInterventions = some ⟨0, 3600000⟩ ∧
    lookupA "123@s.whatsapp.net"
        (markProcessCompletedDefault 0 "123@s.whatsapp.net"
          Registry.empty).completedChats = some ⟨0, 3600000⟩ ∧
    (3600000 : Nat) ≠ 24 * 60 * 60 * 1000 := by
  decide

/-- C5: a non-group, non-owner turn whose intent is `ProcessCompleted`
registers the CompletedChat entry, sends the English farewell (the session
language is `"en"`) and resets `currentContext`/`processCompleted` — but
the registered entry expires after 3 600 000 ms (one hour), not the 24
hours the claim and the code's own log message state. -/
theorem handleIncomingMessage_completed_one_hour :
    handleIncomingMessage 0 "1234567890" "5550001111@s.whatsapp.net" "gracias"
        "ProcessCompleted"
        ⟨some "en", "product_selected", true, some "gracias", true⟩
        Registry.empty =
      .completedTurn
        ⟨[], [], [("5550001111@s.whatsapp.net", ⟨0, 3600000⟩)]⟩
        (.textMsg "Thank you for your inquiry! We've registered your information.")
        ⟨some "en", "", false, some "gracias", true⟩ := by
  decide

/-- C6: `isBusinessHours` is false on a configured holiday regardless of
weekday and hour; false when the weekday row is closed; otherwise true iff
`start <= hour < end` at hour resolution; with the configured table it is
true on a non-holiday Saturday at 11, false on any Saturday at 13, and
false on any Sunday. -/
theorem isBusinessHours_spec :
    (∀ d : JsDate, isHoliday d = true → isBusinessHours d = false) ∧
    (∀ d : JsDate, businessHoursTable d.getDay = .closed → isBusinessHours d = false) ∧
    (∀ (d : JsDate) (start endHour : Nat), isHoliday d = false →
      businessHoursTable d.getDay = .openHours start endHour →
      (isBusinessHours d = true ↔ (start ≤ d.getHours ∧ d.getHours < endHour))) ∧
    (∀ d : JsDate, d.getDay = 6 → d.getHours = 11 → isHoliday d = false →
      isBusinessHours d = true) ∧
    (∀ d : JsDate, d.getDay = 6 → d.getHours = 13 → isBusinessHours d = false) ∧
    (∀ d : JsDate, d.getDay = 0 → isBusinessHours d = false) := by
  refine ⟨?_, ?_, ?_, ?_, ?_, ?_⟩
  · intro d h
    simp [isBusinessHours, h]
  · intro d h
    cases hh : isHoliday d <;> simp [isBusinessHours, h, hh]
  · intro d start endHour h1 h2
    simp [isBusinessHours, h1, h2, Bool.and_eq_true, ge_iff_le]
  · intro d h6 h11 hol
    simp [isBusinessHours, hol, h6, h11, businessHoursTable]
  · intro d h6 h13
    cases hh : isHoliday d <;> simp [isBusinessHours, h6, h13, hh, businessHoursTable]
  · intro d h0
    cases hh : isHoliday d <;> simp [isBusinessHours, h0, hh, businessHoursTable]

/-- Concrete instance for C6: Saturday, March 15, 11:00 is not a holiday
and the business is open. -/
theorem isBusinessHours_spec_witness :
    isHoliday ⟨2, 15, 6, 11⟩ = false ∧ isBusinessHours ⟨2, 15, 6, 11⟩ = true :=
  ⟨by decide, isBusinessHours_spec.2.2.2.1 ⟨2, 15, 6, 11⟩ rfl rfl (by decide)⟩

/-- C8: `/off` without an argument disables for 24 hours; an argument is
accepted iff `parseInt` yields an integer in 1–168 inclusive, creating a
CommandDisable entry expiring that many hours from now; otherwise the
command is rejected and the registry is unchanged. -/
theorem deactivateBot_spec (now : Nat) (ownerNumber chatId : String) (r : Registry) :
    deactivateBot now ownerNumber chatId none r =
      (some 24,
       { r with disabledChats :=
                  insertA chatId ⟨ownerNumber, now, now + 24 * 60 * 60 * 1000⟩
                    r.disabledChats }) ∧
    (∀ (s : String) (h : Int), s ≠ "" → parseIntJS s = some h → 1 ≤ h → h ≤ 168 →
      deactivateBot now ownerNumber chatId (some s) r =
        (some h,
         { r with disabledChats :=
                    insertA chatId ⟨ownerNumber, now, now + h.toNat * 60 * 60 * 1000⟩
                      r.disabledChats })) ∧
    (∀ s : String, s ≠ "" → parseIntJS s = none →
      deactivateBot now ownerNumber chatId (some s) r = (none, r)) ∧
    (∀ (s : String) (h : Int), s ≠ "" → parseIntJS s = some h → (h < 1 ∨ 168 < h) →
      deactivateBot now ownerNumber chatId (some s) r = (none, r)) := by
  refine ⟨?_, ?_, ?_, ?_⟩
  · simp [deactivateBot]
  · intro s h hs hp h1 h2
    simp only [deactivateBot, if_neg hs, hp]
    rw [if_neg (by omega)]
  · intro s hs hp
    simp [deactivateBot, if_neg hs, hp]
  · intro s h hs hp hout
    simp only [deactivateBot, if_neg hs, hp]
    rw [if_pos (by omega)]

/-- Concrete instance for C8: `/off 48` creates a 48-hour entry. -/
theorem deactivateBot_spec_witness :
    ("48" : String) ≠ "" ∧ parseIntJS "48" = some 48 ∧
    deactivateBot 0 "1234567890" "1234567890@s.whatsapp.net" (some "48")
        Registry.empty =
      (some 48,
       { Registry.empty with disabledChats :=
                               insertA "1234567890@s.whatsapp.net"
                                 ⟨"1234567890", 0, 0 + (48 : Int).toNat * 60 * 60 * 1000⟩
                                 Registry.empty.disabledChats }) :=
  ⟨by decide, by decide,
   (deactivateBot_spec 0 "1234567890" "1234567890@s.whatsapp.net" Registry.empty).2.1
     "48" 48 (by decide) (by decide) (by decide) (by decide)⟩

/-- C9 counterexample: the owner's message `"/online"` is not the `/on`
reactivation command (the command router dispatches on the first
whitespace token), yet `detectOwnerMessage` returns false for it, so
"true exactly when the sender is the owner and the text is not itself the
/on command" fails at this input. -/
theorem detectOwnerMessage_counterexample :
    detectOwnerMessage "1234567890" "1234567890@s.whatsapp.net" "/online" = false ∧
    userPart "1234567890@s.whatsapp.net" = "1234567890" ∧
    isOnReactivationCommand "/online" = false := by
  decide

/-- C9 (amended): `detectOwnerMessage` returns true exactly when the chat
id's user part equals the configured owner identity and the text does not
start with `"/on"`; the call leaves the disable registry unchanged. -/
theorem detectOwnerMessage_iff (ownerNumber chatId message : String) (r : Registry) :
    (detectOwnerMessage ownerNumber chatId message = true ↔
      (userPart chatId = ownerNumber ∧ jsStartsWith message "/on" = false)) ∧
    (detectOwnerMessageS ownerNumber chatId message r).2 = r := by
  refine ⟨?_, rfl⟩
  by_cases h1 : userPart chatId = ownerNumber <;>
    cases h2 : jsStartsWith message "/on" <;>
      simp [detectOwnerMessage, isOwner, h1, h2]

/-- C1: when the turn carries a resolvable language input, the handler
stores the resolved language (always `"es"` or `"en"`); inside business
hours it sends the main menu, leaves the context at `language_selected`
and does not touch `processCompleted`; outside business hours it sends
the out-of-hours message and sets `processCompleted := true`. -/
theorem processLanguageIntent_spec (bh : Bool) (p : IntentParams) (u : UserState)
    (hstage : u.currentContext = "waiting_language_selection" ∨ u.languageCode = none)
    (li : LangInput) (hres : languageInputOf p u.text = some li) :
    ((processLanguageIntent bh p u).1.languageCode = some (languageCodeOf li) ∧
      (languageCodeOf li = "es" ∨ languageCodeOf li = "en")) ∧
    (bh = true →
      (processLanguageIntent bh p u).2 = .businessHoursMenu (languageCodeOf li) ∧
      (processLanguageIntent bh p u).1.currentContext = "language_selected" ∧
      (processLanguageIntent bh p u).1.processCompleted = u.processCompleted) ∧
    (bh = false →
      (processLanguageIntent bh p u).2 = .outOfHoursMessage (languageCodeOf li) ∧
      (processLanguageIntent bh p u).1.processCompleted = true) := by
  have hcode : languageCodeOf li = "es" ∨ languageCodeOf li = "en" := by
    unfold languageCodeOf
    split <;> simp
  cases bh <;> simp [processLanguageIntent, hres, hcode]

/-- Concrete instance for C1: a user at language selection typing `"2"`
inside business hours is stored as English and receives the English main
menu. -/
theorem processLanguageIntent_spec_witness :
    (⟨none, "waiting_language_selection", false, some "2", false⟩ : UserState).currentContext =
      "waiting_language_selection" ∧
    languageInputOf ⟨none, none⟩ (some "2") = some (.str "en") ∧
    (processLanguageIntent true ⟨none, none⟩
        ⟨none, "waiting_language_selection", false, some "2", false⟩).1.languageCode =
      some (languageCodeOf (.str "en")) ∧
    (processLanguageIntent true ⟨none, none⟩
        ⟨none, "waiting_language_selection", false, some "2", false⟩).2 =
      .businessHoursMenu (languageCodeOf (.str "en")) := by
  have h := processLanguageIntent_spec true ⟨none, none⟩
    ⟨none, "waiting_language_selection", false, some "2", false⟩ (Or.inl rfl)
    (.str "en") (by decide)
  exact ⟨rfl, by decide, h.1.1, (h.2.1 rfl).1⟩

/-- C10: every resolved language input other than `1`, `"1"`, `"es"`,
`"español"` resolves to English; in particular a nonzero numeric
parameter other than `1` stores `"en"` and proceeds to a menu rather than
re-prompting for language. -/
theorem languageCodeOf_defaults_to_english (li : LangInput)
    (h1 : li ≠ .num 1) (h2 : li ≠ .str "1") (h3 : li ≠ .str "es")
    (h4 : li ≠ .str "español") :
    languageCodeOf li = "en" ∧
    (∀ (bh : Bool) (u : UserState) (n : Int) (lang : Option String),
      n ≠ 0 → n ≠ 1 →
      (processLanguageIntent bh ⟨some n, lang⟩ u).1.languageCode = some "en" ∧
      (processLanguageIntent bh ⟨some n, lang⟩ u).2 ≠ .languagePrompt) := by
  have main : languageCodeOf li = "en" := by
    unfold languageCodeOf
    rw [if_neg]
    push_neg
    exact ⟨h1, h2, h3, h4⟩
  refine ⟨main, ?_⟩
  intro bh u n lang hn0 hn1
  have hinput : languageInputOf ⟨some n, lang⟩ u.text = some (.num n) := by
    simp [languageInputOf, truthyNum, hn0]
  have hcode : languageCodeOf (.num n) = "en" := by
    unfold languageCodeOf
    rw [if_neg]
    push_neg
    exact ⟨by simpa using hn1, by simp, by simp, by simp⟩
  cases bh <;> simp [processLanguageIntent, hinput, hcode]

/-- Concrete instance for C10: the numeric parameter `3` resolves to
English and the user receives a menu, not the language re-prompt. -/
theorem languageCodeOf_defaults_witness :
    languageCodeOf (.num 3) = "en" ∧
    (processLanguageIntent true ⟨some 3, none⟩
        ⟨none, "waiting_language_selection", false, none, false⟩).1.languageCode =
      some "en" ∧
    (processLanguageIntent true ⟨some 3, none⟩
        ⟨none, "waiting_language_selection", false, none, false⟩).2 ≠ .languagePrompt := by
  have h := languageCodeOf_defaults_to_english (.num 3) (by decide) (by decide)
    (by decide) (by decide)
  have h2 := h.2 true ⟨none, "waiting_language_selection", false, none, false⟩ 3 none
    (by decide) (by decide)
  exact ⟨h.1, h2.1, h2.2⟩

end AndyBot
